import Mathlib

/-!
Verification of the `smodel` / `langmeantree` meaning-compiler core

This file gives a shallow embedding, in Lean 4, of the core of the
`hydroper/rust.smodel` repository:

* `crates/langmeantree-proc/src/symbol.rs` — the arena-backed symbol table
  (`Arena`, `LmtFactory`, `Symbol` and its kind-checked accessors) — embedded
  in namespace `LMT`;
* `crates/smodel-proc/src/processing/processing_step_3_2.rs` — field
  contribution, accessor generation and the recursive `match_field`
  algorithm — embedded in namespace `SM`;
* `crates/smodel-proc/src/processing/processing_step_3_7.rs` — the
  constructor/factory generator (`exec`, `init_data`) — embedded in
  namespace `SM`.

Modelling conventions:

* Rust `Rc`/`Weak` handles into the arena are modelled as allocation indices
  (`Nat`).  The arena owns a list of symbol payloads; `Weak::upgrade` is
  `List.get?` (it succeeds exactly while the arena still holds the
  allocation, and the arena never removes entries).  `Weak::ptr_eq` is index
  equality: two live `Rc` allocations have equal addresses iff they are the
  same allocation.
* Functions that can panic in Rust (`unwrap`, out-of-bounds indexing,
  kind-mismatch aborts) are embedded as `Option`-valued functions, `none`
  meaning "the Rust code aborts".
* `syn::Type`, `syn::Expr`, `syn::Attribute` and emitted token streams are
  opaque syntax carried verbatim by the generator; they are modelled as
  `String`s (or small structured inductives when a claim is about the shape
  of generated code).
* Interior mutability (`RefCell` fields inside the arena) is modelled by
  explicit state passing: a mutation produces a new arena value.
-/

namespace LMT

/-- The `syn::Type`, modelled as opaque text. -/
abbrev SynType := String

/-- The `syn::Expr`, modelled as opaque text. -/
abbrev SynExpr := String

/-- The `syn::Attribute`, modelled as opaque text. -/
abbrev SynAttribute := String

/-- A non-owning handle to an arena allocation (Rust `Weak<Symbol1>` inside
`Symbol`): the index of the allocation in the arena's vector. -/
abbrev SymbolHandle := Nat

/-- The `OverrideLogicMapping` from `symbol.rs`: optional override code plus a
recursive mapping from submeaning handle to nested override logic.  The
`SharedMap` is modelled as an association list. -/
inductive OverrideLogicMapping where
  | mk (override_code : Option String)
       (mapping : List (SymbolHandle × OverrideLogicMapping))

/-- The `MeaningSlot1` from `symbol.rs`. -/
structure MeaningSlot1 where
  name : String
  inherits : Option SymbolHandle
  submeanings : List SymbolHandle
  methods : List (String × SymbolHandle)

/-- The `FieldSlot1` from `symbol.rs`. -/
structure FieldSlot1 where
  name : String
  field_type : SynType
  field_init : SynExpr
  is_ref : Bool

/-- The `MethodSlot1` from `symbol.rs`. -/
structure MethodSlot1 where
  name : String
  defined_in : SymbolHandle
  doc_attribute : Option SynAttribute
  override_logic_mapping : List (SymbolHandle × OverrideLogicMapping)

/-- The `Symbol1` from `symbol.rs`: the arena payload, one of three kinds. -/
inductive Symbol1 where
  | meaningSlot (slot : MeaningSlot1)
  | fieldSlot (slot : FieldSlot1)
  | methodSlot (slot : MethodSlot1)

/-- The `Arena<Symbol1>`: `data: RefCell<Vec<Rc<Symbol1>>>`, the sole strong
owner of every allocation. -/
abbrev Arena := List Symbol1

/-- The `Arena::allocate`: push a strong reference into the arena's vector and
return the downgraded (non-owning) handle.  The handle's identity is the
allocation's address, modelled as its index. -/
def Arena.allocate (a : Arena) (value : Symbol1) : Arena × SymbolHandle :=
  (a ++ [value], a.length)

/-- The `Weak::upgrade` on a symbol handle: succeeds (returns the payload) iff
the arena still holds the allocation.  The arena never removes entries, so
this is `List.get?`. -/
def Arena.upgrade (a : Arena) (s : SymbolHandle) : Option Symbol1 :=
  a[s]?

/-- The `Symbol::clone` (`#[derive(Clone)]` on a `Weak` wrapper): a clone is a
second handle to the same allocation. -/
def Symbol.clone (s : SymbolHandle) : SymbolHandle := s

/-- The `PartialEq for Symbol`: `self.0.ptr_eq(&other.0)` — identity, never
content.  Two live allocations have equal addresses iff they are the same
allocation, i.e. iff the indices agree. -/
def Symbol.eq (s t : SymbolHandle) : Bool := s == t

/-- The `Hash for Symbol`: hashes `self.0.as_ptr()` — the allocation address,
modelled as the index. -/
def Symbol.hash (s : SymbolHandle) : Nat := s

/-- The `LmtFactory::create_meaning_slot`: allocate a fresh `MeaningSlot1` with
no parent, empty submeanings and empty method map, wrapped as a symbol. -/
def LmtFactory.create_meaning_slot (a : Arena) (name : String) :
    Arena × SymbolHandle :=
  a.allocate (.meaningSlot { name := name, inherits := none,
                             submeanings := [], methods := [] })

/-- The `LmtFactory::create_field_slot`. -/
def LmtFactory.create_field_slot (a : Arena) (is_ref : Bool) (name : String)
    (field_type : SynType) (field_init : SynExpr) : Arena × SymbolHandle :=
  a.allocate (.fieldSlot { name := name, field_type := field_type,
                           field_init := field_init, is_ref := is_ref })

/-- The `LmtFactory::create_method_slot`. -/
def LmtFactory.create_method_slot (a : Arena) (name : String)
    (defined_in : SymbolHandle) (doc_attribute : Option SynAttribute) :
    Arena × SymbolHandle :=
  a.allocate (.methodSlot { name := name, defined_in := defined_in,
                            doc_attribute := doc_attribute,
                            override_logic_mapping := [] })

/-- The `Symbol::is_meaning_slot` (the `access!` upgrade is assumed to succeed;
`none` = dangling handle, the `unwrap` panics). -/
def Symbol.is_meaning_slot (a : Arena) (s : SymbolHandle) : Option Bool :=
  (a.upgrade s).map fun sym => match sym with
    | .meaningSlot _ => true
    | _ => false

/-- The `Symbol::is_field_slot`. -/
def Symbol.is_field_slot (a : Arena) (s : SymbolHandle) : Option Bool :=
  (a.upgrade s).map fun sym => match sym with
    | .fieldSlot _ => true
    | _ => false

/-- The `Symbol::is_method_slot`. -/
def Symbol.is_method_slot (a : Arena) (s : SymbolHandle) : Option Bool :=
  (a.upgrade s).map fun sym => match sym with
    | .methodSlot _ => true
    | _ => false

/-- The `Symbol::name`: matches every kind (the source's wildcard `panic!()` arm
is unreachable over the three-variant enum), so it returns the stored name
for each kind.  `none` only for a dangling handle. -/
def Symbol.name (a : Arena) (s : SymbolHandle) : Option String :=
  match a.upgrade s with
  | some (.meaningSlot slot) => some slot.name
  | some (.fieldSlot slot) => some slot.name
  | some (.methodSlot slot) => some slot.name
  | none => none

/-- The `Symbol::inherits`: meaning slots only; any other kind panics
(`none`). -/
def Symbol.inherits (a : Arena) (s : SymbolHandle) :
    Option (Option SymbolHandle) :=
  match a.upgrade s with
  | some (.meaningSlot slot) => some slot.inherits
  | _ => none

/-- The `Symbol::set_inherits`: replace the `inherits` cell of a meaning slot in
place; any other kind panics (`none`).  The returned arena is the updated
state. -/
def Symbol.set_inherits (a : Arena) (s : SymbolHandle)
    (value : Option SymbolHandle) : Option Arena :=
  match a.upgrade s with
  | some (.meaningSlot slot) =>
      some (a.set s (.meaningSlot { slot with inherits := value }))
  | _ => none

/-- The `Symbol::submeanings`: meaning slots only. -/
def Symbol.submeanings (a : Arena) (s : SymbolHandle) :
    Option (List SymbolHandle) :=
  match a.upgrade s with
  | some (.meaningSlot slot) => some slot.submeanings
  | _ => none

/-- The `Symbol::methods`: meaning slots only. -/
def Symbol.methods (a : Arena) (s : SymbolHandle) :
    Option (List (String × SymbolHandle)) :=
  match a.upgrade s with
  | some (.meaningSlot slot) => some slot.methods
  | _ => none

/-- The `Symbol::field_type`: field slots only. -/
def Symbol.field_type (a : Arena) (s : SymbolHandle) : Option SynType :=
  match a.upgrade s with
  | some (.fieldSlot slot) => some slot.field_type
  | _ => none

/-- The `Symbol::field_init`: field slots only. -/
def Symbol.field_init (a : Arena) (s : SymbolHandle) : Option SynExpr :=
  match a.upgrade s with
  | some (.fieldSlot slot) => some slot.field_init
  | _ => none

/-- The `Symbol::is_ref`: field slots only. -/
def Symbol.is_ref (a : Arena) (s : SymbolHandle) : Option Bool :=
  match a.upgrade s with
  | some (.fieldSlot slot) => some slot.is_ref
  | _ => none

/-- The `Symbol::defined_in`: method slots only. -/
def Symbol.defined_in (a : Arena) (s : SymbolHandle) : Option SymbolHandle :=
  match a.upgrade s with
  | some (.methodSlot slot) => some slot.defined_in
  | _ => none

/-- The `Symbol::doc_attribute`: method slots only. -/
def Symbol.doc_attribute (a : Arena) (s : SymbolHandle) :
    Option (Option SynAttribute) :=
  match a.upgrade s with
  | some (.methodSlot slot) => some slot.doc_attribute
  | _ => none

/-- The `Symbol::override_logic_mapping`: method slots only. -/
def Symbol.override_logic_mapping (a : Arena) (s : SymbolHandle) :
    Option (List (SymbolHandle × OverrideLogicMapping)) :=
  match a.upgrade s with
  | some (.methodSlot slot) => some slot.override_logic_mapping
  | _ => none

/-- Kind predicates on payloads, for stating the kind-check contracts. -/
def Symbol1.isMeaning : Symbol1 → Bool
  | .meaningSlot _ => true
  | _ => false

/-- Payload kind predicate: field slot. -/
def Symbol1.isField : Symbol1 → Bool
  | .fieldSlot _ => true
  | _ => false

/-- Payload kind predicate: method slot. -/
def Symbol1.isMethod : Symbol1 → Bool
  | .methodSlot _ => true
  | _ => false

/-- The contract of the kind-checked accessors on a symbol whose arena
payload is `sym`: each accessor succeeds (does not abort) exactly on its
matching kind — `name` matches every kind, `inherits` / `set_inherits` /
`submeanings` / `methods` only meanings, `field_type` / `field_init` /
`is_ref` only fields, `defined_in` / `override_logic_mapping` only
methods — and on the matching kind returns the stored value. -/
def AccessorContract (a : Arena) (s : SymbolHandle) (sym : Symbol1)
    (p : Option SymbolHandle) : Prop :=
  ((Symbol.name a s).isSome
   ∧ ((Symbol.inherits a s).isSome ↔ sym.isMeaning = true)
   ∧ ((Symbol.set_inherits a s p).isSome ↔ sym.isMeaning = true)
   ∧ ((Symbol.submeanings a s).isSome ↔ sym.isMeaning = true)
   ∧ ((Symbol.methods a s).isSome ↔ sym.isMeaning = true)
   ∧ ((Symbol.field_type a s).isSome ↔ sym.isField = true)
   ∧ ((Symbol.field_init a s).isSome ↔ sym.isField = true)
   ∧ ((Symbol.is_ref a s).isSome ↔ sym.isField = true)
   ∧ ((Symbol.defined_in a s).isSome ↔ sym.isMethod = true)
   ∧ ((Symbol.override_logic_mapping a s).isSome ↔ sym.isMethod = true))
  ∧ ((∀ m, sym = .meaningSlot m →
        Symbol.name a s = some m.name
        ∧ Symbol.inherits a s = some m.inherits
        ∧ Symbol.submeanings a s = some m.submeanings
        ∧ Symbol.methods a s = some m.methods)
     ∧ (∀ f, sym = .fieldSlot f →
        Symbol.name a s = some f.name
        ∧ Symbol.field_type a s = some f.field_type
        ∧ Symbol.field_init a s = some f.field_init
        ∧ Symbol.is_ref a s = some f.is_ref)
     ∧ (∀ mt, sym = .methodSlot mt →
        Symbol.name a s = some mt.name
        ∧ Symbol.defined_in a s = some mt.defined_in
        ∧ Symbol.override_logic_mapping a s = some mt.override_logic_mapping))

/-- One step of factory/symbol-table usage: the public mutating entry points
of `LmtFactory` and `Symbol` that change the arena state. -/
inductive FactoryOp where
  | createMeaningSlot (name : String)
  | createFieldSlot (is_ref : Bool) (name : String)
      (field_type : SynType) (field_init : SynExpr)
  | createMethodSlot (name : String) (defined_in : SymbolHandle)
      (doc_attribute : Option SynAttribute)
  | setInherits (s : SymbolHandle) (p : Option SymbolHandle)

/-- Apply one factory/symbol operation to the arena state (`none` = the
operation panicked, aborting the pass). -/
def applyOp (a : Arena) : FactoryOp → Option Arena
  | .createMeaningSlot n => some (LmtFactory.create_meaning_slot a n).1
  | .createFieldSlot r n t i => some (LmtFactory.create_field_slot a r n t i).1
  | .createMethodSlot n d doc =>
      some (LmtFactory.create_method_slot a n d doc).1
  | .setInherits s p => Symbol.set_inherits a s p

/-- Apply a sequence of factory/symbol operations. -/
def applyOps (a : Arena) : List FactoryOp → Option Arena
  | [] => some a
  | op :: rest => (applyOp a op).bind fun a' => applyOps a' rest

/-- A handle is live in an arena when the arena still owns its allocation
(then `Weak::upgrade` succeeds). -/
abbrev Arena.live (a : Arena) (s : SymbolHandle) : Prop := s < a.length

end LMT

namespace SM

/-!
Embedding of `smodel-proc`'s processing steps 3.2 and 3.7.  The `smodel`
symbol table mirrors the `langmeantree` one; the parts of it used by the
processing steps but not excerpted under `src/` (`Symbol::fields()`,
`Symbol::method_output()`, the `SModelHost` factory) are modelled from the
spec, as noted on each definition.
-/

/-- The `syn::Type`, opaque text. -/
abbrev SynType := String

/-- The `syn::Expr`, opaque text. -/
abbrev SynExpr := String

/-- Crate constant `DATA` (the generated storage module/type path prefix).
Modelled from the spec: its concrete spelling is outside the excerpt; no
claim depends on it. -/
def DATA : String := "__data__"

/-- Crate constant `DATA_VARIANT_PREFIX` (prefix of the per-meaning
submeaning enum name).  Modelled from the spec; renamed here.  No claim
depends on its spelling. -/
def DATA_VARIANT_PFX : String := "Variant"

/-- Crate constant `DATA_VARIANT_FIELD` (the tag field of each layer).
Modelled from the spec; no claim depends on its spelling. -/
def DATA_VARIANT_FIELD : String := "__variant"

/-- Crate constant `DATA_VARIANT_NO_SUBMEANING` (the terminal variant).
Modelled from the spec; no claim depends on its spelling. -/
def DATA_VARIANT_NO_SUBMEANING : String := "NoSubmeaning"

/-- The data of a meaning symbol in the `smodel` symbol table, as used by
the processing steps.  `name` and `inherits` are as in
`langmeantree`'s `MeaningSlot1`; `fields` is `Symbol::fields()` —
Modelled from the spec: a shared map from field name to field slot, unique
keys, contributed incrementally (here an insertion-ordered association
list of name and field-slot handle). -/
structure MeaningSlot where
  name : String
  inherits : Option Nat
  fields : List (String × Nat)

/-- The data of a field symbol in the `smodel` symbol table
(cf. `FieldSlot1`). -/
structure FieldSlot where
  name : String
  field_type : SynType
  field_init : SynExpr
  is_ref : Bool

/-- The part of `SModelHost` used by steps 3.2/3.7: the factory's arena of
meaning and field symbols.  Meaning handles index `meanings`; field-slot
handles index `fieldSlots`. -/
structure SmHost where
  meanings : List MeaningSlot
  fieldSlots : List FieldSlot

/-- The `SharedMap::has` on a field map. -/
def mapHas (m : List (String × Nat)) (k : String) : Bool :=
  m.any fun e => e.1 == k

/-- The `SharedMap::set` on a field map: replace the value under an existing
key, otherwise append the new entry. -/
def mapSet (m : List (String × Nat)) (k : String) (v : Nat) :
    List (String × Nat) :=
  if mapHas m k then
    m.map fun e => if e.1 == k then (k, v) else e
  else
    m ++ [(k, v)]

/-- The `host.factory.create_field_slot`: allocate a fresh field symbol in the
host's arena and return its handle.  Modelled from the spec (the `smodel`
factory mirrors `LmtFactory::create_field_slot`). -/
def SmHost.create_field_slot (host : SmHost) (is_ref : Bool) (name : String)
    (field_type : SynType) (field_init : SynExpr) : SmHost × Nat :=
  ({ host with
      fieldSlots := host.fieldSlots ++
        [{ name := name, field_type := field_type,
                         field_init := field_init, is_ref := is_ref }] },
   host.fieldSlots.length)

/-- The parsed field declaration (`Rc<MeaningField>` from the external AST
layer): name with its source span, type annotation, default value and
by-ref flag. -/
structure MeaningFieldNode where
  name : String
  span : Nat
  type_annotation : SynType
  default_value : SynExpr
  is_ref : Bool

/-- A user-facing diagnostic: source position plus message
(`span.error(message).emit()`). -/
structure Diagnostic where
  span : Nat
  message : String
  deriving DecidableEq

/-- An apostrophe character, for building diagnostic texts. -/
def sq : String := (Char.ofNat 39).toString

/-- The `ProcessingStep3_2::match_field`: generate, starting at chain position
`meaning_index`, the traversal expression from `base` (an `Rc<#DATA::M>`
value) to the field's physical cell.  Returns `none` when the Rust code
panics (out-of-bounds chain index, or a dangling/kind-mismatched symbol
access).

The source recurses by position: every access is relative to
`meaning_index` (`asc_meaning_list.len() - meaning_index`,
`asc_meaning_list[meaning_index]`, `asc_meaning_list[meaning_index + 1]`,
recursion at `meaning_index + 1`), so position `idx` is embedded as the
suffix `asc_meaning_list.drop idx` (see `matchFieldAt`) and the source's
arithmetic becomes a case split on that suffix:

* `rest = []`: `len - meaning_index = 0 ≠ 1`, so the source evaluates
  `asc_meaning_list[meaning_index]`, which is out of bounds — abort;
* `rest = [mId]`: `len - meaning_index = 1`, so `inherited = None` and
  `meaning = asc_meaning_list[meaning_index]`;
* `rest = mId :: next :: _`: `len - meaning_index ≥ 2`, so
  `inherited = Some(asc_meaning_list[meaning_index])` (a value the source
  then never reads — it is shadowed below) and
  `meaning = asc_meaning_list[meaning_index + 1]`.

In every non-empty case the source then runs
`let Some(inherited) = meaning.inherits() else { return base.field };`
(shadowing the positional `inherited`) and on `Some` recurses at
`meaning_index + 1` inside the generated `if`-let unwrap. -/
def matchField (ms : List MeaningSlot) :
    List Nat → String → String → Option String
  | [], _, _ => none
  | [mId], base, fieldName =>
    (match ms[mId]? with
     | none => none
     | some meaning =>
       match meaning.inherits with
       | none => some (base ++ "." ++ fieldName)
       | some inhId =>
         match ms[inhId]? with
         | none => none
         | some inh =>
           (matchField ms [] "o" fieldName).map fun inner =>
             "(if " ++ DATA ++ "::" ++ (DATA_VARIANT_PFX ++ inh.name) ++ "::"
               ++ meaning.name ++ "(o) = &" ++ base ++ "." ++ DATA_VARIANT_FIELD
               ++ " \x7b " ++ inner ++ " \x7d else \x7b panic!() \x7d)")
  | _ :: next :: rest, base, fieldName =>
    (match ms[next]? with
     | none => none
     | some meaning =>
       match meaning.inherits with
       | none => some (base ++ "." ++ fieldName)
       | some inhId =>
         match ms[inhId]? with
         | none => none
         | some inh =>
           (matchField ms (next :: rest) "o" fieldName).map fun inner =>
             "(if " ++ DATA ++ "::" ++ (DATA_VARIANT_PFX ++ inh.name) ++ "::"
               ++ meaning.name ++ "(o) = &" ++ base ++ "." ++ DATA_VARIANT_FIELD
               ++ " \x7b " ++ inner ++ " \x7d else \x7b panic!() \x7d)")

/-- The `ProcessingStep3_2::match_field` with the source's positional calling
convention: position `meaning_index` into `asc_meaning_list` is the suffix
starting there. -/
def matchFieldAt (ms : List MeaningSlot) (asc : List Nat) (idx : Nat)
    (base fieldName : String) : Option String :=
  matchField ms (asc.drop idx) base fieldName

/-- The opening token of one generated `if`-let layer unwrap. -/
def unwrapToken : List Char := ['(', 'i', 'f', ' ']

/-- Count the positions of a character list where `unwrapToken` starts. -/
def unwrapCountAux : List Char → Nat
  | [] => 0
  | c :: rest =>
      (if unwrapToken.isPrefixOf (c :: rest) then 1 else 0)
        + unwrapCountAux rest

/-- The number of layer-unwrap (pattern-match) steps a generated accessor
expression performs: the number of `if`-let unwraps in the text. -/
def unwrapCount (s : String) : Nat := unwrapCountAux s.data

/-- The storage-cell wrapper chosen for a field in the `#DATA::M`
structure: `::std::cell::RefCell<T>` or `::std::cell::Cell<T>`. -/
inductive CellKind where
  | refCell
  | cell
  deriving DecidableEq

/-- One field declaration contributed to the `#DATA::M` structure:
`pub <name>: <cell><field_type>,`. -/
structure FieldDecl where
  name : String
  kind : CellKind
  field_type : SynType
  deriving DecidableEq

/-- The body of a generated getter: `#fv.borrow().clone()` for
reference-cell fields, `#fv.get()` for value-cell fields. -/
inductive GetterBody where
  | borrowClone (fv : String)
  | cellGet (fv : String)
  deriving DecidableEq

/-- The body of a generated setter: `#fv.replace(v)` for reference-cell
fields, `#fv.set(v)` for value-cell fields. -/
inductive SetterBody where
  | refCellReplace (fv : String)
  | cellSet (fv : String)
  deriving DecidableEq

/-- An item appended to the meaning's `method_output`
(`Symbol::method_output()` is modelled from the spec: the shared token
stream of generated methods for a meaning): a getter
`fn <name>(&self) -> <ty> { <body> }` or a setter
`fn <name>(&self, v: <ty>) { <body> }`. -/
inductive MethodItem where
  | getter (name : String) (ty : SynType) (body : GetterBody)
  | setter (name : String) (ty : SynType) (body : SetterBody)
  deriving DecidableEq

/-- The `ProcessingStep3_2::define_accessors`: build the traversal expression
for the field (from `<base_accessor>.upgrade().unwrap()`) and append a
getter/setter pair to the meaning's `method_output`.  `none` when
`match_field` panics. -/
def defineAccessors (ms : List MeaningSlot) (slotIsRef : Bool)
    (fieldName : String) (fieldType : SynType) (baseAccessor : String)
    (asc : List Nat) : Option (List MethodItem) :=
  let getterName := fieldName
  let setterName := "set_" ++ fieldName
  (matchFieldAt ms asc 0 (baseAccessor ++ ".upgrade().unwrap()") fieldName).map
    fun fv =>
      if slotIsRef then
        [.getter getterName fieldType (.borrowClone fv),
         .setter setterName fieldType (.refCellReplace fv)]
      else
        [.getter getterName fieldType (.cellGet fv),
         .setter setterName fieldType (.cellSet fv)]

/-- The result of `ProcessingStep3_2::exec` on one field: the updated host,
the diagnostics emitted, the final `field_output` stream and the items
appended to the meaning's `method_output`. -/
structure Exec32Result where
  host : SmHost
  diagnostics : List Diagnostic
  field_output : List FieldDecl
  method_output_add : List MethodItem

/-- The `ProcessingStep3_2::exec`: create a field slot, register it on the
meaning unless the name collides (collision: emit one diagnostic at the
field's source position and stop processing this field), contribute a
storage cell to `field_output`, and define the accessors.  `none` when the
Rust code panics (dangling meaning handle, or `match_field` aborts). -/
def exec3_2 (host : SmHost) (meaningId : Nat) (field : MeaningFieldNode)
    (baseAccessor : String) (asc : List Nat)
    (field_output : List FieldDecl) : Option Exec32Result :=
  -- 1. Create a FieldSlot.
  let created := host.create_field_slot field.is_ref field.name
    field.type_annotation field.default_value
  let host1 := created.1
  let slot : FieldSlot := { name := field.name,
                            field_type := field.type_annotation,
                            field_init := field.default_value,
                            is_ref := field.is_ref }
  match host1.meanings[meaningId]? with
  | none => none
  | some m =>
    -- 2. Contribute the field slot to the meaning slot.
    if mapHas m.fields slot.name then
      some { host := host1,
             diagnostics := [{ span := field.span,
                               message := "Redefining " ++ sq ++ slot.name ++ sq }],
             field_output := field_output,
             method_output_add := [] }
    else
      let m1 := { m with fields := mapSet m.fields slot.name created.2 }
      let host2 := { host1 with meanings := host1.meanings.set meaningId m1 }
      -- 3. Contribute a field to the #DATA::M structure.
      let decl : FieldDecl := { name := slot.name,
                                kind := if slot.is_ref then .refCell else .cell,
                                field_type := slot.field_type }
      -- 4. Define accessors.
      match defineAccessors host2.meanings slot.is_ref slot.name
          slot.field_type baseAccessor asc with
      | none => none
      | some items =>
          some { host := host2, diagnostics := [],
                 field_output := field_output ++ [decl],
                 method_output_add := items }

/-- The cell initializer used for a field in the generated layer
allocation: `RefCell::new(init)` or `Cell::new(init)`. -/
structure FieldInit where
  name : String
  kind : CellKind
  init : SynExpr
  deriving DecidableEq

/-- The generated layer-allocation expression
`#DATA::M { <fields> , <variant field>: <variant> }`; the variant is either
`<enum>::<next meaning>(Rc::new(<inner layer>))` (`some`) or
`<enum>::NO_SUBMEANING` (`none`). -/
inductive DataExpr where
  | mk (typeName : String) (fields : List FieldInit) (variantEnum : String)
       (variant : Option (String × DataExpr))

/-- The fields part of a layer allocation for meaning `m`: one
`name: RefCell::new(init)` / `name: Cell::new(init)` per entry of the
meaning's own field map, in order (`none` = a field-slot handle failed to
resolve, which panics). -/
def ownFieldInits (host : SmHost) (m : MeaningSlot) :
    Option (List FieldInit) :=
  m.fields.mapM fun nf =>
    (host.fieldSlots[nf.2]?).map fun f =>
      { name := nf.1,
        kind := if f.is_ref then CellKind.refCell else CellKind.cell,
        init := f.field_init }

/-- The `ProcessingStep3_7::init_data`: build the layer allocation for chain
position `meaning_index`, initializing every field of that layer with its
default value and nesting the next layer's allocation (or the terminal
variant) in the tag field.

As with `match_field`, the source recurses by position with every access
relative to `meaning_index` (`asc_meaning_list[meaning_index]`, the bound
check `meaning_index + 1 < asc_meaning_list.len()`,
`asc_meaning_list[meaning_index + 1]`, recursion at `meaning_index + 1`),
so position `i` is embedded as the suffix `asc_meaning_list.drop i`
(see `initDataAt`): the head is `asc_meaning_list[meaning_index]` and the
bound check is the case split on the tail. -/
def initData (host : SmHost) : List Nat → Option DataExpr
  | [] => none
  | mId :: rest =>
    match host.meanings[mId]? with
    | none => none
    | some m =>
      match ownFieldInits host m with
      | none => none
      | some fieldInits =>
        let variantEnum := DATA ++ "::" ++ (DATA_VARIANT_PFX ++ m.name)
        match rest with
        | [] => some (.mk m.name fieldInits variantEnum none)
        | nId :: rest2 =>
          match host.meanings[nId]? with
          | none => none
          | some nm =>
            match initData host (nId :: rest2) with
            | none => none
            | some inner =>
                some (.mk m.name fieldInits variantEnum (some (nm.name, inner)))

/-- The `ProcessingStep3_7::init_data` with the source's positional calling
convention. -/
def initDataAt (host : SmHost) (asc : List Nat) (i : Nat) : Option DataExpr :=
  initData host (asc.drop i)

/-- Walk `k` layers down a generated allocation expression, through the
nested variant payloads. -/
def DataExpr.nthLayer : DataExpr → Nat → Option DataExpr
  | e, 0 => some e
  | .mk _ _ _ none, _ + 1 => none
  | .mk _ _ _ (some (_, inner)), k + 1 => inner.nthLayer k

/-- The parsed constructor declaration (`MeaningConstructor` from the
external AST layer); generics, attributes and visibility are verbatim
spliced syntax and are omitted. -/
structure CtorNode where
  inputs : List String
  super_arguments : List String
  statements : List String

/-- One statement of the generated `M::new` body, in emission order:
the layered allocation `let __cto1 = <layers>(arena.allocate(<init>))`,
the inherited meaning's `__ctor` call, the own `__ctor` call, and the
final `__cto1` return. -/
inductive NewStmt where
  | letCto1 (layersInit : DataExpr)
  | superCtorCall (inheritedName : String) (superArgs : List String)
  | ownCtorCall (args : List String)
  | returnCto1

/-- The `convert_function_input_to_arguments`: forward the declared parameters
of `new` as the arguments of the own-`__ctor` call.  Modelled from the
spec (the helper is outside the excerpt). -/
def convertFunctionInputToArguments (inputs : List String) : List String :=
  inputs

/-- The output of `ProcessingStep3_7::exec` for one meaning: the generated
`__ctor` instance method (name, parameters, body statements) and the body
of the generated static `M::new` factory. -/
structure Exec37Out where
  ctorName : String
  ctorInputs : List String
  ctorStatements : List String
  newBody : List NewStmt

/-- The `ProcessingStep3_7::exec`: emit the `__ctor` own-initializer
(the declared constructor body, without `super()` and without storage
allocation) and the `M::new` factory, whose body in order (a) allocates
the full nested layer structure with every field defaulted, (b) if the
meaning inherits, invokes the inherited meaning's `__ctor` on the same
storage with the declared super-arguments, (c) invokes the own `__ctor`
with the factory's inputs, (d) returns the instance. -/
def exec3_7 (host : SmHost) (node : Option CtorNode) (meaningId : Nat)
    (asc : List Nat) : Option Exec37Out :=
  let input := (node.map fun n => n.inputs).getD []
  let statements := (node.map fun n => n.statements).getD []
  match initDataAt host asc 0 with
  | none => none
  | some initlayer1 =>
    match host.meanings[meaningId]? with
    | none => none
    | some m =>
      let superPart : Option (List NewStmt) :=
        match m.inherits with
        | some pId =>
            (host.meanings[pId]?).map fun p =>
              [NewStmt.superCtorCall p.name
                ((node.map fun n => n.super_arguments).getD [])]
        | none => some []
      match superPart with
      | none => none
      | some superStmts =>
          some { ctorName := "__ctor",
                 ctorInputs := input,
                 ctorStatements := statements,
                 newBody := [NewStmt.letCto1 initlayer1] ++ superStmts
                   ++ [NewStmt.ownCtorCall
                         (convertFunctionInputToArguments input),
                       NewStmt.returnCto1] }

/-- The constructor log of a generated `M::new` body under the scenario of
the spec's constructor-ordering property: every meaning's `__ctor` body
records that meaning's name to a shared log, so running the body logs the
name of each meaning whose `__ctor` is invoked, in call order. -/
def ctorLog (ownName : String) (body : List NewStmt) : List String :=
  body.filterMap fun s =>
    match s with
    | .superCtorCall n _ => some n
    | .ownCtorCall _ => some ownName
    | _ => none

/-- Every meaning symbol reachable from the chain resolves in the host's
table and its own field slots all resolve (the situation produced by the
earlier processing steps, which create every slot through the factory). -/
def chainResolvable (host : SmHost) (chain : List Nat) : Prop :=
  ∀ mId, mId ∈ chain →
    ∃ m fi, host.meanings[mId]? = some m ∧ ownFieldInits host m = some fi

/-- The layer shape guaranteed for `init_data` over an ascending chain
`[A0..An]`: the allocation exists, and its `i`-th nested layer is built
from `Ai` — it holds exactly `Ai`'s own fields, each wrapped in its cell
initializer with its declared default, under `Ai`'s submeaning enum; its
tag selects the layer of `A(i+1)` when one exists and the terminal
variant when `i = n`. -/
def LayeredShape (host : SmHost) (chain : List Nat) : Prop :=
  ∃ e, initData host chain = some e
    ∧ ∀ i mId m fi, chain[i]? = some mId → host.meanings[mId]? = some m →
        ownFieldInits host m = some fi →
        ∃ v, e.nthLayer i
              = some (.mk m.name fi (DATA ++ "::" ++ (DATA_VARIANT_PFX ++ m.name)) v)
          ∧ (∀ nmId nm, chain[i+1]? = some nmId →
               host.meanings[nmId]? = some nm →
               ∃ inner, v = some (nm.name, inner))
          ∧ (chain[i+1]? = none → v = none)

/-- The collision-handling contract of `ProcessingStep3_2::exec` on a
meaning whose slot is `m`.  On a duplicate field name: exactly one
diagnostic, at the field's declared source position, and an early return —
the meaning table (hence its field set) is untouched, no storage cell is
appended to `field_output`, and no accessors are emitted (only the
unregistered slot allocation in the factory arena remains).  On a fresh
field name (stated here for a root meaning processed with its singleton
chain): no diagnostic, the field is registered, the cell is appended and
the accessor pair is emitted. -/
def Collision32Contract (host : SmHost) (meaningId : Nat)
    (field : MeaningFieldNode) (base : String) (fo : List FieldDecl)
    (m : MeaningSlot) : Prop :=
  (mapHas m.fields field.name = true →
     ∀ asc, exec3_2 host meaningId field base asc fo
       = some { host := { host with
                          fieldSlots := host.fieldSlots ++
                            [{ name := field.name,
                               field_type := field.type_annotation,
                               field_init := field.default_value,
                               is_ref := field.is_ref }] },
                diagnostics := [{ span := field.span,
                                  message := "Redefining " ++ sq
                                    ++ field.name ++ sq }],
                field_output := fo,
                method_output_add := [] })
  ∧ (mapHas m.fields field.name = false → m.inherits = none →
     ∃ r, exec3_2 host meaningId field base [meaningId] fo = some r
       ∧ r.diagnostics = []
       ∧ r.host.meanings = host.meanings.set meaningId
           { m with fields := mapSet m.fields field.name
                                host.fieldSlots.length }
       ∧ r.field_output = fo ++
           [{ name := field.name,
              kind := if field.is_ref then .refCell else .cell,
              field_type := field.type_annotation }]
       ∧ r.method_output_add.length = 2)

/-- The storage-cell and accessor contract of `ProcessingStep3_2::exec`
for one field whose traversal expression resolved to `fv`: the cell
contributed to the layer type is a `RefCell` exactly when `is_ref` is set
and a `Cell` otherwise; the getter reads via immutable borrow plus clone
for reference-cell fields and by value-read for value-cell fields; the
setter replaces the cell's contents in both cases; and getter and setter
both expose the field's declared type. -/
def FieldCell32Contract (host : SmHost) (meaningId : Nat)
    (field : MeaningFieldNode) (base : String) (asc : List Nat)
    (fo : List FieldDecl) (fv : String) : Prop :=
  ∃ r, exec3_2 host meaningId field base asc fo = some r
    ∧ r.field_output = fo ++
        [{ name := field.name,
           kind := if field.is_ref then .refCell else .cell,
           field_type := field.type_annotation }]
    ∧ ((if field.is_ref then CellKind.refCell else CellKind.cell)
         = CellKind.refCell ↔ field.is_ref = true)
    ∧ r.method_output_add =
        (if field.is_ref then
          [.getter field.name field.type_annotation (.borrowClone fv),
           .setter ("set_" ++ field.name) field.type_annotation
             (.refCellReplace fv)]
        else
          [.getter field.name field.type_annotation (.cellGet fv),
           .setter ("set_" ++ field.name) field.type_annotation
             (.cellSet fv)])

end SM

/-! ## Concrete fixtures used by the claim witnesses and counterexamples -/

/-- A meaning payload `M` with no parent. -/
def lmtM : LMT.MeaningSlot1 :=
  { name := "M", inherits := none, submeanings := [], methods := [] }

/-- An arena holding one symbol of each kind. -/
def lmtArena3 : LMT.Arena :=
  [.meaningSlot lmtM,
   .fieldSlot { name := "x", field_type := "T", field_init := "E0",
                is_ref := true },
   .methodSlot { name := "f", defined_in := 0, doc_attribute := none,
                 override_logic_mapping := [] }]

/-- The arena after `LmtFactory::new()` plus `create_meaning_slot("M")`. -/
def lmtArenaM : LMT.Arena := (LMT.LmtFactory.create_meaning_slot [] "M").1

/-- A sample operation sequence applied after creating `M`. -/
def lmtOpsEx : List LMT.FactoryOp :=
  [.createFieldSlot true "x" "T" "E", .setInherits 0 none]

/-- The arena resulting from `lmtOpsEx` on `lmtArenaM`. -/
def lmtArenaM2 : LMT.Arena :=
  [.meaningSlot { name := "M", inherits := none, submeanings := [],
                  methods := [] },
   .fieldSlot { name := "x", field_type := "T", field_init := "E",
                is_ref := true }]

/-- Meaning table for the two-element ascending chain `[R, A]`
(`A` inherits `R`). -/
def msRA : List SM.MeaningSlot := [⟨"R", none, []⟩, ⟨"A", some 0, []⟩]

/-- Meaning table for the four-element ascending chain `[R, A, B, C]`. -/
def msRABC : List SM.MeaningSlot :=
  [⟨"R", none, []⟩, ⟨"A", some 0, []⟩, ⟨"B", some 1, []⟩, ⟨"C", some 2, []⟩]

/-- Meaning table for the singleton chain `[R]`. -/
def msROnly : List SM.MeaningSlot := [⟨"R", none, []⟩]

/-- Host for the chain `A → B → C`, with a by-value field `x` on `A`
(default `0`) and a by-ref field `y` on `B` (default `dflt`). -/
def hostABC : SM.SmHost :=
  { meanings := [⟨"A", none, [("x", 0)]⟩, ⟨"B", some 0, [("y", 1)]⟩,
                 ⟨"C", some 1, []⟩],
    fieldSlots := [⟨"x", "i32", "0", false⟩,
                   ⟨"y", "String", "dflt", true⟩] }

/-- The `C`'s declared constructor in the ordering scenario: its body records
`C`'s name to the shared log. -/
def ctorC : SM.CtorNode := ⟨["arg"], ["sarg"], ["log C"]⟩

/-- The full default-initialized layered allocation for `C` in `hostABC`:
`A`'s layer (cell `x = 0`) wrapping `B`'s layer (ref-cell `y = dflt`)
wrapping `C`'s terminal layer. -/
def abcLayers : SM.DataExpr :=
  .mk "A" [⟨"x", .cell, "0"⟩]
    (SM.DATA ++ "::" ++ (SM.DATA_VARIANT_PFX ++ "A"))
    (some ("B",
      .mk "B" [⟨"y", .refCell, "dflt"⟩]
        (SM.DATA ++ "::" ++ (SM.DATA_VARIANT_PFX ++ "B"))
        (some ("C",
          .mk "C" [] (SM.DATA ++ "::" ++ (SM.DATA_VARIANT_PFX ++ "C"))
            none))))

/-- Host with a single root meaning `M` owning one field `x`. -/
def hostM : SM.SmHost :=
  { meanings := [⟨"M", none, [("x", 0)]⟩],
    fieldSlots := [⟨"x", "i32", "0", false⟩] }

/-- A field declaration colliding with `M`'s existing `x`. -/
def dupFieldNode : SM.MeaningFieldNode := ⟨"x", 7, "i32", "1", false⟩

/-- A fresh by-ref field declaration `z` on `M`. -/
def freshFieldNode : SM.MeaningFieldNode := ⟨"z", 9, "Q", "qq", true⟩



/-! ## Theorems -/

namespace LMT

/-- Every single operation keeps every existing allocation: the arena's
vector only grows (`allocate` pushes) or is updated in place
(`set_inherits` replaces one `RefCell`), never shrunk. -/
theorem applyOp_length_mono (a a' : Arena) (op : FactoryOp)
    (h : applyOp a op = some a') : a.length ≤ a'.length := by
  cases op with
  | createMeaningSlot n =>
      simp only [applyOp, LmtFactory.create_meaning_slot, Arena.allocate,
        Option.some.injEq] at h
      subst h; simp
  | createFieldSlot r n t i =>
      simp only [applyOp, LmtFactory.create_field_slot, Arena.allocate,
        Option.some.injEq] at h
      subst h; simp
  | createMethodSlot n d doc =>
      simp only [applyOp, LmtFactory.create_method_slot, Arena.allocate,
        Option.some.injEq] at h
      subst h; simp
  | setInherits s p =>
      simp only [applyOp, Symbol.set_inherits, Arena.upgrade] at h
      cases hs : a[s]? with
      | none => rw [hs] at h; exact absurd h (by simp)
      | some sym =>
          rw [hs] at h
          cases sym with
          | meaningSlot slot =>
              simp only [Option.some.injEq] at h
              subst h; simp
          | fieldSlot slot => exact absurd h (by simp)
          | methodSlot slot => exact absurd h (by simp)

/-- Arena length is monotone across any operation sequence. -/
theorem applyOps_length_mono (ops : List FactoryOp) (a a' : Arena)
    (h : applyOps a ops = some a') : a.length ≤ a'.length := by
  induction ops generalizing a with
  | nil => simp only [applyOps, Option.some.injEq] at h; subst h; exact le_rfl
  | cons op rest ih =>
      simp only [applyOps] at h
      cases hop : applyOp a op with
      | none => rw [hop] at h; exact absurd h (by simp)
      | some a1 =>
          rw [hop] at h
          simp only [Option.some_bind] at h
          exact le_trans (applyOp_length_mono a a1 op hop) (ih a1 h)

end LMT

/-- C5: Two `Symbol` handles obtained from the same `Arena` allocation
compare equal (`ptr_eq`) and hash to the same value, and two handles
obtained from two distinct allocations of the *same* content are unequal:
equality and hashing depend only on storage identity, never on content. -/
theorem symbol_identity_semantics (a : LMT.Arena) (v : LMT.Symbol1) :
    (LMT.Symbol.eq (a.allocate v).2 (LMT.Symbol.clone (a.allocate v).2) = true
      ∧ LMT.Symbol.hash (LMT.Symbol.clone (a.allocate v).2)
          = LMT.Symbol.hash (a.allocate v).2)
    ∧ LMT.Symbol.eq (a.allocate v).2 (((a.allocate v).1.allocate v).2)
        = false := by
  refine ⟨⟨?_, rfl⟩, ?_⟩
  · unfold LMT.Symbol.eq LMT.Symbol.clone
    exact beq_self_eq_true _
  · simp [LMT.Symbol.eq, LMT.Arena.allocate]

/-- C6: With the arena alive (the handle's payload is `sym`), every
kind-checked accessor aborts exactly on a mismatched kind and returns the
stored value on the matching kind; `name` matches all three kinds (its
wildcard panic arm is unreachable). -/
theorem accessor_kind_contract (a : LMT.Arena) (s : LMT.SymbolHandle)
    (sym : LMT.Symbol1) (p : Option LMT.SymbolHandle)
    (h : a.upgrade s = some sym) : LMT.AccessorContract a s sym p := by
  unfold LMT.AccessorContract
  cases sym <;>
    simp [LMT.Symbol.name, LMT.Symbol.inherits, LMT.Symbol.set_inherits,
      LMT.Symbol.submeanings, LMT.Symbol.methods, LMT.Symbol.field_type,
      LMT.Symbol.field_init, LMT.Symbol.is_ref, LMT.Symbol.defined_in,
      LMT.Symbol.override_logic_mapping, LMT.Symbol1.isMeaning,
      LMT.Symbol1.isField, LMT.Symbol1.isMethod, h]

/-- Witness for C6 at a concrete arena and meaning symbol. -/
theorem accessor_kind_contract_witness :
    LMT.Arena.upgrade lmtArena3 0 = some (.meaningSlot lmtM)
    ∧ LMT.AccessorContract lmtArena3 0 (.meaningSlot lmtM) none :=
  ⟨rfl, accessor_kind_contract lmtArena3 0 (.meaningSlot lmtM) none rfl⟩

/-- C9: Handles returned by the factory's `create_*` functions are live
in the resulting arena, and liveness is preserved by any subsequent
sequence of factory/symbol operations, so the `access!` upgrade
(`Weak::upgrade().unwrap()`) performed by every accessor succeeds while
the factory's arena exists: the arena keeps a strong reference to each
allocation for its whole lifetime and never releases one individually. -/
theorem factory_handles_never_dangle :
    (∀ (a : LMT.Arena) (nm : String),
        (LMT.LmtFactory.create_meaning_slot a nm).1.live
          (LMT.LmtFactory.create_meaning_slot a nm).2)
    ∧ (∀ (a : LMT.Arena) (r : Bool) (nm : String) (t : LMT.SynType)
          (i : LMT.SynExpr),
        (LMT.LmtFactory.create_field_slot a r nm t i).1.live
          (LMT.LmtFactory.create_field_slot a r nm t i).2)
    ∧ (∀ (a : LMT.Arena) (nm : String) (d : LMT.SymbolHandle)
          (doc : Option LMT.SynAttribute),
        (LMT.LmtFactory.create_method_slot a nm d doc).1.live
          (LMT.LmtFactory.create_method_slot a nm d doc).2)
    ∧ (∀ (a : LMT.Arena) (s : LMT.SymbolHandle) (ops : List LMT.FactoryOp)
          (a' : LMT.Arena), a.live s → LMT.applyOps a ops = some a' →
        (a'.upgrade s).isSome = true) := by
  refine ⟨?_, ?_, ?_, ?_⟩
  · intro a nm
    simp [LMT.LmtFactory.create_meaning_slot, LMT.Arena.allocate,
      LMT.Arena.live]
  · intro a r nm t i
    simp [LMT.LmtFactory.create_field_slot, LMT.Arena.allocate,
      LMT.Arena.live]
  · intro a nm d doc
    simp [LMT.LmtFactory.create_method_slot, LMT.Arena.allocate,
      LMT.Arena.live]
  · intro a s ops a' hl hops
    have hlt : s < a'.length :=
      lt_of_lt_of_le hl (LMT.applyOps_length_mono ops a a' hops)
    unfold LMT.Arena.upgrade
    rw [List.getElem?_eq_getElem hlt]
    rfl

/-- Witness for C9: the handle created for meaning `M` stays live across a
subsequent field-slot creation and a `set_inherits`, and its upgrade
succeeds. -/
theorem factory_handles_never_dangle_witness :
    LMT.Arena.live lmtArenaM 0
    ∧ LMT.applyOps lmtArenaM lmtOpsEx = some lmtArenaM2
    ∧ (LMT.Arena.upgrade lmtArenaM2 0).isSome = true :=
  ⟨by decide, by rfl,
   factory_handles_never_dangle.2.2.2 lmtArenaM 0 lmtOpsEx lmtArenaM2
     (by decide) (by rfl)⟩

/-- C10: `set_inherits` on a meaning slot succeeds, after which
`inherits` returns exactly the installed optional parent handle, while the
meaning's `name`, `submeanings` and `methods` and every other symbol in
the table are unchanged. -/
theorem set_inherits_frame (a : LMT.Arena) (s : LMT.SymbolHandle)
    (slot : LMT.MeaningSlot1) (p : Option LMT.SymbolHandle)
    (h : a.upgrade s = some (.meaningSlot slot)) :
    ∃ a', LMT.Symbol.set_inherits a s p = some a'
      ∧ LMT.Symbol.inherits a' s = some p
      ∧ LMT.Symbol.name a' s = some slot.name
      ∧ LMT.Symbol.submeanings a' s = some slot.submeanings
      ∧ LMT.Symbol.methods a' s = some slot.methods
      ∧ ∀ j, j ≠ s → a'.upgrade j = a.upgrade j := by
  have hlt : s < a.length := (List.getElem?_eq_some_iff.mp h).1
  have hset : (a.set s (.meaningSlot { slot with inherits := p }))[s]?
      = some (.meaningSlot { slot with inherits := p }) :=
    List.getElem?_set_self hlt
  refine ⟨a.set s (.meaningSlot { slot with inherits := p }),
    ?_, ?_, ?_, ?_, ?_, ?_⟩
  · unfold LMT.Symbol.set_inherits
    rw [h]
  · unfold LMT.Symbol.inherits LMT.Arena.upgrade
    rw [hset]
  · unfold LMT.Symbol.name LMT.Arena.upgrade
    rw [hset]
  · unfold LMT.Symbol.submeanings LMT.Arena.upgrade
    rw [hset]
  · unfold LMT.Symbol.methods LMT.Arena.upgrade
    rw [hset]
  · intro j hj
    unfold LMT.Arena.upgrade
    exact List.getElem?_set_ne (Ne.symm hj)

/-- Witness for C10 at a concrete arena: installing parent `2` on the
meaning at handle `0`. -/
theorem set_inherits_frame_witness :
    LMT.Arena.upgrade lmtArena3 0 = some (.meaningSlot lmtM)
    ∧ ∃ a', LMT.Symbol.set_inherits lmtArena3 0 (some 2) = some a'
        ∧ LMT.Symbol.inherits a' 0 = some (some 2)
        ∧ LMT.Symbol.name a' 0 = some lmtM.name
        ∧ LMT.Symbol.submeanings a' 0 = some lmtM.submeanings
        ∧ LMT.Symbol.methods a' 0 = some lmtM.methods
        ∧ ∀ j, j ≠ 0 → a'.upgrade j = LMT.Arena.upgrade lmtArena3 j :=
  ⟨rfl, set_inherits_frame lmtArena3 0 lmtM (some 2) rfl⟩

/-- C1 counterexample: For the chain `[A, B, C]` (each meaning with a
constructor that records its own name), the factory generated for `C` does
*not* produce the log `["A", "B", "C"]`: `C::new` invokes only the direct
parent's own-initializer (`B::__ctor`) before `C`'s, so `A`'s
own-initializer never runs and the log is `["B", "C"]`. -/
theorem ctor_chain_log_counterexample :
    ¬ ((SM.exec3_7 hostABC (some ctorC) 2 [0, 1, 2]).map
        (fun o => SM.ctorLog "C" o.newBody) = some ["A", "B", "C"]) := by
  decide

/-- C1 amended: For the chain `[A, B, C]`, the factory generated for
`C` first builds the full layered storage with every field default-
initialized (the first statement of `C::new` is the `abcLayers`
allocation, which is exactly `init_data` over the chain), then runs the
*direct parent's* own-initializer and then `C`'s own-initializer — so the
recorded log is `["B", "C"]`: ancestors beyond the direct parent are not
initialized by `C`'s factory. -/
theorem ctor_chain_direct_parent_only :
    SM.exec3_7 hostABC (some ctorC) 2 [0, 1, 2]
      = some { ctorName := "__ctor",
               ctorInputs := ["arg"],
               ctorStatements := ["log C"],
               newBody := [SM.NewStmt.letCto1 abcLayers,
                           SM.NewStmt.superCtorCall "B" ["sarg"],
                           SM.NewStmt.ownCtorCall ["arg"],
                           SM.NewStmt.returnCto1] }
    ∧ SM.ctorLog "C" [SM.NewStmt.letCto1 abcLayers,
                      SM.NewStmt.superCtorCall "B" ["sarg"],
                      SM.NewStmt.ownCtorCall ["arg"],
                      SM.NewStmt.returnCto1] = ["B", "C"]
    ∧ SM.initDataAt hostABC [0, 1, 2] 0 = some abcLayers :=
  ⟨rfl, rfl, rfl⟩

/-- C2 counterexample: For a field `f` declared on `A` with the
ascending chain `[root, A, B, C]`, `match_field` started at index 0 does
not produce any getter expression at all (the recursion runs past the last
chain element and aborts on an out-of-bounds index), let alone one with
exactly two layer-unwrap steps. -/
theorem accessor_depth_counterexample :
    ¬ ∃ e, SM.matchFieldAt msRABC [0, 1, 2, 3] 0 "b" "f" = some e
        ∧ SM.unwrapCount e = 2 := by
  intro hex
  obtain ⟨e, he, _⟩ := hex
  have hn : SM.matchFieldAt msRABC [0, 1, 2, 3] 0 "b" "f" = none := rfl
  rw [hn] at he
  exact Option.noConfusion he

/-- C2 amended: On the chain `[root, A, B, C]`, `match_field`
(started at index 0) aborts with an out-of-bounds chain index and no
getter expression is produced for any field; only for a meaning with a
singleton ascending chain does the generated getter exist, and it performs
zero layer-unwrap steps (the direct access `base.field`). -/
theorem accessor_depth_amended :
    SM.matchFieldAt msRABC [0, 1, 2, 3] 0 "b" "f" = none
    ∧ SM.matchFieldAt msROnly [0] 0 "b" "f" = some "b.f"
    ∧ SM.unwrapCount "b.f" = 0 := by
  refine ⟨rfl, rfl, ?_⟩
  decide

/-- C3: Contrary to the claimed base case, on the two-element ascending
chain `[R, A]` (where `A` inherits `R`) the `match_field` recursion does
not stop at the last element with the direct access `base.field_name`:
started at index 0 it aborts (out-of-bounds index 2), and even started
directly *at* the last position (index 1) it takes the recursive branch
again (because `A.inherits()` is `Some`, which shadows the positional
test) and aborts instead of returning `o.f`. -/
theorem match_field_aborts_on_two_chain :
    SM.matchFieldAt msRA [0, 1] 0 "b" "f" = none
    ∧ SM.matchFieldAt msRA [0, 1] 1 "o" "f" = none :=
  ⟨rfl, rfl⟩

/-- C4: `ProcessingStep3_2::exec` on a field whose name already exists
in the meaning's field set emits exactly one diagnostic, at the field's
declared source position, and stops: the meaning table (hence the field
set, which keeps its single entry under that name) is untouched, no
storage cell is appended to `field_output`, and no accessors are emitted —
only the unregistered slot allocation remains in the factory arena.  A
field with a fresh name (here on a root meaning with its singleton chain)
is processed normally: no diagnostic, the slot is registered, the cell is
appended and the accessor pair is generated. -/
theorem field_collision_handling (host : SM.SmHost) (meaningId : Nat)
    (field : SM.MeaningFieldNode) (base : String) (fo : List SM.FieldDecl)
    (m : SM.MeaningSlot)
    (hm : host.meanings[meaningId]? = some m) :
    SM.Collision32Contract host meaningId field base fo m := by
  constructor
  · intro hdup asc
    unfold SM.exec3_2
    simp only [SM.SmHost.create_field_slot, hm, hdup, if_true]
  · intro hfresh hroot
    have hlt : meaningId < host.meanings.length :=
      (List.getElem?_eq_some_iff.mp hm).1
    unfold SM.exec3_2
    simp only [SM.SmHost.create_field_slot, hm, hfresh]
    unfold SM.defineAccessors SM.matchFieldAt
    simp only [List.drop_zero]
    unfold SM.matchField
    rw [List.getElem?_set_self hlt]
    simp only [hroot]
    refine ⟨_, rfl, rfl, rfl, rfl, ?_⟩
    cases hr : field.is_ref <;> simp [hr]

/-- Witness for C4: on `hostM`, redeclaring `x` (already owned by `M`)
falls under the collision contract, and the fresh field `z` falls under
the normal-processing contract. -/
theorem field_collision_handling_witness :
    hostM.meanings[0]? = some ⟨"M", none, [("x", 0)]⟩
    ∧ SM.Collision32Contract hostM 0 dupFieldNode "self.0" []
        ⟨"M", none, [("x", 0)]⟩
    ∧ SM.Collision32Contract hostM 0 freshFieldNode "self.0" []
        ⟨"M", none, [("x", 0)]⟩ :=
  ⟨rfl,
   field_collision_handling hostM 0 dupFieldNode "self.0" [] _ rfl,
   field_collision_handling hostM 0 freshFieldNode "self.0" [] _ rfl⟩

/-- C8: Whenever `ProcessingStep3_2::exec` processes a fresh field and
the traversal expression resolves to `fv`, the storage cell contributed to
the layer type is a `RefCell` exactly when `is_ref` is set and a `Cell`
otherwise; the generated getter reads via `borrow().clone()` for
reference-cell fields and via `get()` for value-cell fields; the generated
setter replaces the cell's contents in both cases (`replace` / `set`); and
both accessors expose the field's declared type. -/
theorem field_cell_accessor_semantics (host : SM.SmHost) (meaningId : Nat)
    (field : SM.MeaningFieldNode) (base : String) (asc : List Nat)
    (fo : List SM.FieldDecl) (m : SM.MeaningSlot) (fv : String)
    (hm : host.meanings[meaningId]? = some m)
    (hfresh : SM.mapHas m.fields field.name = false)
    (hfv : SM.matchFieldAt
        (host.meanings.set meaningId
          { m with fields := SM.mapSet m.fields field.name
                               host.fieldSlots.length })
        asc 0 (base ++ ".upgrade().unwrap()") field.name = some fv) :
    SM.FieldCell32Contract host meaningId field base asc fo fv := by
  unfold SM.FieldCell32Contract SM.exec3_2
  simp only [SM.SmHost.create_field_slot, hm, hfresh]
  unfold SM.defineAccessors
  rw [hfv]
  simp only [Option.map_some']
  refine ⟨_, rfl, rfl, ?_, rfl⟩
  cases hr : field.is_ref <;> simp [hr]

/-- Witness for C8 at a concrete host: the fresh by-ref field `z` on the
root meaning `M`, whose traversal expression is the direct cell access. -/
theorem field_cell_accessor_semantics_witness :
    hostM.meanings[0]? = some ⟨"M", none, [("x", 0)]⟩
    ∧ SM.mapHas (SM.MeaningSlot.fields ⟨"M", none, [("x", 0)]⟩) "z" = false
    ∧ SM.matchFieldAt
        (hostM.meanings.set 0
          { name := "M", inherits := none,
            fields := SM.mapSet [("x", 0)] "z" 1 })
        [0] 0 ("self.0" ++ ".upgrade().unwrap()") "z"
        = some "self.0.upgrade().unwrap().z"
    ∧ SM.FieldCell32Contract hostM 0 freshFieldNode "self.0" [0] []
        "self.0.upgrade().unwrap().z" :=
  ⟨rfl, rfl, rfl,
   field_cell_accessor_semantics hostM 0 freshFieldNode "self.0" [0] [] _
     "self.0.upgrade().unwrap().z" rfl rfl rfl⟩

/-- C7: For every non-empty ascending meaning list `[A0..An]` whose
meanings and field slots all resolve, `init_data` (started at index 0)
produces a nested allocation in which layer `i` is built from `Ai`: it
holds exactly `Ai`'s own fields, each initialized to its declared default
expression under its cell wrapper, and a tag field under `Ai`'s submeaning
enum that selects the layer of `A(i+1)` when `i < n` and the terminal
no-submeaning variant when `i = n`. -/
theorem init_data_layer_shape (host : SM.SmHost) (chain : List Nat)
    (hne : chain ≠ []) (hres : SM.chainResolvable host chain) :
    SM.LayeredShape host chain := by
  revert hne hres
  induction chain with
  | nil => intro hne _; exact absurd rfl hne
  | cons mId rest ih =>
    intro _ hres
    obtain ⟨m, fi, hm, hfi⟩ := hres mId (List.mem_cons_self _ _)
    cases rest with
    | nil =>
      refine ⟨SM.DataExpr.mk m.name fi
        (SM.DATA ++ "::" ++ (SM.DATA_VARIANT_PFX ++ m.name)) none, ?_, ?_⟩
      · simp [SM.initData, hm, hfi]
      · intro i mId' m' fi' hci hm' hfi'
        cases i with
        | zero =>
          have h0 : mId = mId' := by simpa using hci
          subst h0
          rw [hm] at hm'
          obtain rfl := Option.some.inj hm'
          rw [hfi] at hfi'
          obtain rfl := Option.some.inj hfi'
          refine ⟨none, rfl, ?_, fun _ => rfl⟩
          intro nmId nm h1 _
          simp at h1
        | succ j =>
          simp at hci
    | cons nId rest2 =>
      obtain ⟨nm, nfi, hnm, hnfi⟩ := hres nId (by simp)
      have hres2 : SM.chainResolvable host (nId :: rest2) := fun x hx =>
        hres x (List.mem_cons_of_mem _ hx)
      obtain ⟨inner, hinner, hP⟩ := ih (by simp) hres2
      refine ⟨SM.DataExpr.mk m.name fi
        (SM.DATA ++ "::" ++ (SM.DATA_VARIANT_PFX ++ m.name))
        (some (nm.name, inner)), ?_, ?_⟩
      · simp [SM.initData, hm, hfi, hnm, hinner]
      · intro i mId' m' fi' hci hm' hfi'
        cases i with
        | zero =>
          have h0 : mId = mId' := by simpa using hci
          subst h0
          rw [hm] at hm'
          obtain rfl := Option.some.inj hm'
          rw [hfi] at hfi'
          obtain rfl := Option.some.inj hfi'
          refine ⟨some (nm.name, inner), rfl, ?_, ?_⟩
          · intro nmId' nm' h1 h2
            have h1' : nId = nmId' := by simpa using h1
            subst h1'
            rw [hnm] at h2
            obtain rfl := Option.some.inj h2
            exact ⟨inner, rfl⟩
          · intro h1
            simp at h1
        | succ j =>
          have hci' : (nId :: rest2)[j]? = some mId' := by simpa using hci
          obtain ⟨v, hv, hvs, hvn⟩ := hP j mId' m' fi' hci' hm' hfi'
          refine ⟨v, ?_, ?_, ?_⟩
          · simpa [SM.DataExpr.nthLayer] using hv
          · intro nmId' nm' h1 h2
            exact hvs nmId' nm' (by simpa using h1) h2
          · intro h1
            exact hvn (by simpa using h1)

/-- Witness for C7 on the concrete chain `A → B → C` of `hostABC`. -/
theorem init_data_layer_shape_witness :
    ([0, 1, 2] : List Nat) ≠ []
    ∧ SM.chainResolvable hostABC [0, 1, 2]
    ∧ SM.LayeredShape hostABC [0, 1, 2] := by
  have hres : SM.chainResolvable hostABC [0, 1, 2] := by
    intro mId hmem
    fin_cases hmem
    · exact ⟨_, _, rfl, rfl⟩
    · exact ⟨_, _, rfl, rfl⟩
    · exact ⟨_, _, rfl, rfl⟩
  exact ⟨by simp, hres,
    init_data_layer_shape hostABC [0, 1, 2] (by simp) hres⟩
